import Mathlib

/-!
Verification of the songbook splitter (split.py).

The script loads a JSON songbook document, filters out the sentinel
record titled "Profile", and re-materializes the data as per-song,
per-album and per-artist JSON files plus a master catalog, an optional
metadata file and an optional artist-profile file.

The embedding below models:
  - song records as optional title/album/artist fields plus opaque rest
    (JSON null values and non-string field values are out of scope);
  - the filesystem as a list of (path, content) write events;
  - I/O failures by a predicate on paths: a guarded writer logs and
    skips a failing item, an unguarded writer aborts the run;
  - Python string comparison as code-point lexicographic order, and
    Python dicts (insertion-ordered) as association lists.
-/

namespace AlexSongs

/-- A song record: optional title, album and artist fields, plus the
remaining opaque key/value pairs, preserved verbatim. -/
structure Song where
  title : Option String
  album : Option String
  artist : Option String
  rest : List (String × String)
deriving DecidableEq

/-- The songbook document: optional opaque metadata plus the songs
sequence (defaulted to the empty sequence by the loader when absent). -/
structure Document where
  metadata : Option String
  songs : List Song
deriving DecidableEq

/-- The characters the sanitizer strips, from the regex character class
in sanitize_filename. -/
def invalidChars : List Char := ['\\', '/', '*', '?', ':', '"', '<', '>', '|']

/-- Models the re.sub call removing invalid filename characters. -/
def removeInvalid (name : String) : String :=
  String.mk (name.data.filter (fun c => !(invalidChars.contains c)))

/-- Models the .replace call turning spaces into underscores. -/
def replaceSpaces (name : String) : String :=
  String.mk (name.data.map (fun c => if c = ' ' then '_' else c))

/-- sanitize_filename: removal pass followed by the replacement pass. -/
def sanitize_filename (name : String) : String :=
  replaceSpaces (removeInvalid name)

/-- Code-point lexicographic comparison of character lists, the order
Python uses to compare strings. -/
def lexLe : List Char → List Char → Bool
  | [], _ => true
  | _ :: _, [] => false
  | a :: as, b :: bs => if a < b then true else if a = b then lexLe as bs else false

/-- Python string comparison (less-or-equal) on the underlying
character lists. -/
def strLe (a b : String) : Bool := lexLe a.data b.data

/-- Propositional form of strLe, used as the sorting relation. -/
def strLeP (a b : String) : Prop := strLe a b = true

instance : DecidableRel strLeP := fun a b =>
  instDecidableEqBool (strLe a b) true

/-- The sort key used for songs inside album and artist files:
x.get of title with default empty string. -/
def titleKey (s : Song) : String := s.title.getD ""

/-- Order on songs by their title key, as used by the sorted calls in
create_album_files and create_artist_files. -/
def songLe (x y : Song) : Prop := strLeP (titleKey x) (titleKey y)

instance : DecidableRel songLe := fun x y =>
  instDecidableEqBool (strLe (titleKey x) (titleKey y)) true

/-- Models sorted on a list of song records with the title key. -/
def sortSongs (l : List Song) : List Song := List.insertionSort songLe l

/-- Models sorted on a list of strings. -/
def sortStrings (l : List String) : List String := List.insertionSort strLeP l

/-- Python truthiness of an optional string field: present and
non-empty. -/
def truthy : Option String → Bool
  | some a => !(a = "")
  | none => false

/-- Append a song to the group of key k in an insertion-ordered
association list, creating the group at the end if absent: the
behaviour of the accumulator dicts in create_album_files and
create_artist_files. -/
def addToGroup (k : String) (s : Song) : List (String × List Song) → List (String × List Song)
  | [] => [(k, [s])]
  | (k2, g) :: rest =>
    if k2 = k then (k2, g ++ [s]) :: rest else (k2, g) :: addToGroup k s rest

/-- One iteration of the grouping loop: checks truthiness of the key
field and appends the song to its group. -/
def stepGroup (keyOf : Song → Option String) (gs : List (String × List Song)) (s : Song) :
    List (String × List Song) :=
  match keyOf s with
  | some k => if k = "" then gs else addToGroup k s gs
  | none => gs

/-- The grouping loops of create_album_files and create_artist_files. -/
def buildGroups (keyOf : Song → Option String) (songs : List Song) :
    List (String × List Song) :=
  songs.foldl (stepGroup keyOf) []

/-- Lookup in an insertion-ordered association list of groups. -/
def lookupG (k : String) : List (String × List Song) → Option (List Song)
  | [] => none
  | (k2, g) :: rest => if k2 = k then some g else lookupG k rest

/-- Membership condition for a song in the group keyed k. -/
def belongs (keyOf : Song → Option String) (k : String) (s : Song) : Bool :=
  (keyOf s == some k) && !(k = "")

/-- Contents of an album file. -/
structure AlbumData where
  album_title : String
  artist : String
  song_count : Nat
  songs : List Song
deriving DecidableEq

/-- Contents of an artist file. -/
structure ArtistData where
  artist_name : String
  song_count : Nat
  songs : List Song
deriving DecidableEq

/-- One album entry of the catalog. -/
structure AlbumEntry where
  artist : String
  songs : List String
deriving DecidableEq

/-- Contents of catalog.json. -/
structure Catalog where
  artists : List (String × List String)
  albums : List (String × AlbumEntry)
  songs : List String
deriving DecidableEq

/-- Content of one output file. -/
inductive FileContent where
  | songFile (s : Song)
  | albumFile (a : AlbumData)
  | artistFile (a : ArtistData)
  | metadataFile (m : String)
  | profileFile (s : Song)
  | catalogFile (c : Catalog)
deriving DecidableEq

/-- Eligibility test of create_song_files: title key present and not
the Profile sentinel. -/
def songEligible (s : Song) : Bool :=
  s.title.isSome && s.title != some "Profile"

/-- Path of the per-song file built from the sanitized title. -/
def songPath (t : String) : String := "songs/" ++ sanitize_filename t ++ ".json"

/-- Path of an album file built from the sanitized album title. -/
def albumPath (k : String) : String := "albums/" ++ sanitize_filename k ++ ".json"

/-- Path of an artist file built from the sanitized artist name. -/
def artistPath (k : String) : String := "artists/" ++ sanitize_filename k ++ ".json"

/-- Message logged when writing one song file fails. -/
def songFailMsg (s : Song) : String :=
  "Could not create file for song: " ++ s.title.getD "NO_TITLE"

/-- Message logged when writing one album file fails. -/
def albumFailMsg (k : String) : String := "Could not create file for album: " ++ k

/-- Message logged when writing one artist file fails. -/
def artistFailMsg (k : String) : String := "Could not create file for artist: " ++ k

/-- create_song_files: one guarded write per eligible song; a failing
write is logged and the loop continues. -/
def create_song_files (fails : String → Bool) : List Song → List (String × FileContent) × List String
  | [] => ([], [])
  | s :: rest =>
    let out := create_song_files fails rest
    if songEligible s then
      if fails (songPath (s.title.getD "")) then (out.1, songFailMsg s :: out.2)
      else ((songPath (s.title.getD ""), FileContent.songFile s) :: out.1, out.2)
    else out

/-- The artist attribution of an album file: taken from the first song
of the group, falling back to the Various Artists default when that
song has no artist key.  The empty-group branch is unreachable because
grouping only ever creates non-empty groups. -/
def firstArtist : List Song → String
  | [] => "Various Artists"
  | s :: _ => s.artist.getD "Various Artists"

/-- The object written for one album group. -/
def mkAlbumData (k : String) (g : List Song) : AlbumData :=
  { album_title := k
    artist := firstArtist g
    song_count := (sortSongs g).length
    songs := sortSongs g }

/-- The object written for one artist group. -/
def mkArtistData (k : String) (g : List Song) : ArtistData :=
  { artist_name := k
    song_count := (sortSongs g).length
    songs := sortSongs g }

/-- The emission loop shared by create_album_files and
create_artist_files: one guarded write per group, failures logged. -/
def writeGroups (fails : String → Bool) (path : String → String) (msg : String → String)
    (mk : String → List Song → FileContent) :
    List (String × List Song) → List (String × FileContent) × List String
  | [] => ([], [])
  | (k, g) :: rest =>
    let out := writeGroups fails path msg mk rest
    if fails (path k) then (out.1, msg k :: out.2)
    else ((path k, mk k g) :: out.1, out.2)

/-- create_album_files: group by the album field, then emit one file
per group. -/
def create_album_files (fails : String → Bool) (songs : List Song) :
    List (String × FileContent) × List String :=
  writeGroups fails albumPath albumFailMsg (fun k g => FileContent.albumFile (mkAlbumData k g))
    (buildGroups (fun s => s.album) songs)

/-- create_artist_files: group by the artist field, then emit one file
per group. -/
def create_artist_files (fails : String → Bool) (songs : List Song) :
    List (String × FileContent) × List String :=
  writeGroups fails artistPath artistFailMsg (fun k g => FileContent.artistFile (mkArtistData k g))
    (buildGroups (fun s => s.artist) songs)

/-- The profile scan of create_profile_and_metadata_files: first record
of the original song sequence whose title equals Profile. -/
def findProfile (songs : List Song) : Option Song :=
  songs.find? (fun s => s.title == some "Profile")

/-- create_profile_and_metadata_files: both writes are unguarded, so a
failing write aborts with the failing path as the propagated error;
the metadata write runs first. -/
def create_profile_and_metadata_files (fails : String → Bool) (d : Document) :
    List (String × FileContent) × Option String :=
  match d.metadata with
  | some m =>
    if fails "metadata.json" then ([], some "metadata.json")
    else
      match findProfile d.songs with
      | some p =>
        if fails "artist_profile.json" then
          ([("metadata.json", FileContent.metadataFile m)], some "artist_profile.json")
        else
          ([("metadata.json", FileContent.metadataFile m),
            ("artist_profile.json", FileContent.profileFile p)], none)
      | none => ([("metadata.json", FileContent.metadataFile m)], none)
  | none =>
    match findProfile d.songs with
    | some p =>
      if fails "artist_profile.json" then ([], some "artist_profile.json")
      else ([("artist_profile.json", FileContent.profileFile p)], none)
    | none => ([], none)

/-- Append a title to the list held for key k in an insertion-ordered
association list: the catalog artists accumulator. -/
def addToAssoc (k : String) (t : String) :
    List (String × List String) → List (String × List String)
  | [] => [(k, [t])]
  | (k2, ts) :: rest =>
    if k2 = k then (k2, ts ++ [t]) :: rest else (k2, ts) :: addToAssoc k t rest

/-- Append a title to the album entry for key k, creating the entry
with the current artist attribution when absent: the catalog albums
accumulator. -/
def addToAlbumAssoc (k : String) (artist : String) (t : String) :
    List (String × AlbumEntry) → List (String × AlbumEntry)
  | [] => [(k, { artist := artist, songs := [t] })]
  | (k2, e) :: rest =>
    if k2 = k then (k2, { e with songs := e.songs ++ [t] }) :: rest
    else (k2, e) :: addToAlbumAssoc k artist t rest

/-- One iteration of the catalog population loop: skip records with a
falsy title or the Profile sentinel, then file the title under its
artist and album with the documented defaults. -/
def catalogStep (c : Catalog) (s : Song) : Catalog :=
  if !(truthy s.title) || s.title == some "Profile" then c
  else
    { c with
      artists := addToAssoc (s.artist.getD "Unknown Artist") (s.title.getD "") c.artists
      albums := addToAlbumAssoc (s.album.getD "Uncategorized") (s.artist.getD "Unknown Artist")
        (s.title.getD "") c.albums }

/-- The filter of the catalog songs list: title key present and not the
Profile sentinel; returns the title. -/
def eligTitle (s : Song) : Option String :=
  if s.title.isSome && s.title != some "Profile" then s.title else none

/-- The catalog object: sorted titles list, then the population loop,
then the per-key sorting passes. -/
def catalogOf (songs : List Song) : Catalog :=
  let base : Catalog :=
    { artists := [], albums := [], songs := sortStrings (songs.filterMap eligTitle) }
  let c := songs.foldl catalogStep base
  { c with
    artists := c.artists.map (fun kv => (kv.1, sortStrings kv.2))
    albums := c.albums.map (fun kv => (kv.1, { kv.2 with songs := sortStrings kv.2.songs })) }

/-- create_catalog_file: a single unguarded write of the catalog
object. -/
def create_catalog_file (fails : String → Bool) (songs : List Song) :
    List (String × FileContent) × Option String :=
  if fails "catalog.json" then ([], some "catalog.json")
  else ([("catalog.json", FileContent.catalogFile (catalogOf songs))], none)

/-- Result of loading the input document. -/
inductive LoadResult where
  | notFound
  | parseError
  | otherError (msg : String)
  | ok (d : Document)

/-- How one run ended: early return on a load failure, an uncaught
write exception, or normal completion. -/
inductive RunStatus where
  | loadFail (diag : String)
  | crashed (err : String)
  | completed
deriving DecidableEq

/-- Observable effects of one run: directories created, files written
(in order), diagnostics printed for failures, and how the run ended. -/
structure RunOutcome where
  dirs : List String
  files : List (String × FileContent)
  logs : List String
  status : RunStatus
deriving DecidableEq

/-- Diagnostic for a missing input file. -/
def notFoundMsg (p : String) : String :=
  "Error: The file " ++ p ++ " was not found."

/-- Diagnostic for unparseable input. -/
def parseErrorMsg (p : String) : String :=
  "Error: The file " ++ p ++ " is not a valid JSON file."

/-- Diagnostic for any other read failure. -/
def readErrorMsg (e : String) : String :=
  "An unexpected error occurred while reading the file: " ++ e

/-- The orchestrator filter removing the Profile sentinel from the
working song list. -/
def noProfile (s : Song) : Bool := s.title != some "Profile"

/-- process_songbook: early return on load failure; otherwise directory
creation, the three guarded writers, then the two unguarded writers,
where an uncaught exception ends the run with the files written so
far. -/
def process_songbook (input_filepath : String) (load : LoadResult) (fails : String → Bool) :
    RunOutcome :=
  match load with
  | LoadResult.notFound =>
    { dirs := [], files := [], logs := [notFoundMsg input_filepath]
      status := RunStatus.loadFail (notFoundMsg input_filepath) }
  | LoadResult.parseError =>
    { dirs := [], files := [], logs := [parseErrorMsg input_filepath]
      status := RunStatus.loadFail (parseErrorMsg input_filepath) }
  | LoadResult.otherError e =>
    { dirs := [], files := [], logs := [readErrorMsg e]
      status := RunStatus.loadFail (readErrorMsg e) }
  | LoadResult.ok data =>
    let songs_only := data.songs.filter noProfile
    let sOut := create_song_files fails songs_only
    let alOut := create_album_files fails songs_only
    let arOut := create_artist_files fails songs_only
    let pmOut := create_profile_and_metadata_files fails data
    match pmOut.2 with
    | some e =>
      { dirs := ["songs", "albums", "artists"]
        files := sOut.1 ++ alOut.1 ++ arOut.1 ++ pmOut.1
        logs := sOut.2 ++ alOut.2 ++ arOut.2
        status := RunStatus.crashed e }
    | none =>
      let cOut := create_catalog_file fails songs_only
      match cOut.2 with
      | some e =>
        { dirs := ["songs", "albums", "artists"]
          files := sOut.1 ++ alOut.1 ++ arOut.1 ++ pmOut.1
          logs := sOut.2 ++ alOut.2 ++ arOut.2
          status := RunStatus.crashed e }
      | none =>
        { dirs := ["songs", "albums", "artists"]
          files := sOut.1 ++ alOut.1 ++ arOut.1 ++ pmOut.1 ++ cOut.1
          logs := sOut.2 ++ alOut.2 ++ arOut.2
          status := RunStatus.completed }

/-- A failure-free filesystem. -/
def noFail : String → Bool := fun _ => false

/-- The first song of a sequence whose album field holds exactly the
given title. -/
def firstSongWithAlbum (songs : List Song) (t : String) : Option Song :=
  songs.find? (fun s => s.album == some t)

/-- An input used to exercise the writers on a failure-free run. -/
def exSong1 : Song := { title := some "B", album := some "Z", artist := some "X", rest := [] }

/-- Second example song, occurring later in input order but earlier in
title order. -/
def exSong2 : Song := { title := some "A", album := some "Z", artist := some "X", rest := [] }

/-- The Profile sentinel record of the example input. -/
def exProfile : Song :=
  { title := some "Profile", album := none, artist := none, rest := [("bio", "hi")] }

/-- Example songbook document with metadata, two songs and a Profile
record. -/
def exDoc : Document := { metadata := some "v1", songs := [exSong1, exSong2, exProfile] }

/-- A record with an album but no title key. -/
def untitledSong : Song := { title := none, album := some "Z", artist := none, rest := [] }

/-- A document holding only a record that lacks a title key. -/
def untitledDoc : Document := { metadata := none, songs := [untitledSong] }

/-- A record with an artist but no title key. -/
def untitledArtistSong : Song :=
  { title := none, album := none, artist := some "Y", rest := [] }

/-- A document holding only a record that has an artist but lacks a
title key. -/
def untitledArtistDoc : Document := { metadata := none, songs := [untitledArtistSong] }

/-- A Profile record that also carries album and artist fields. -/
def profileWithAlbum : Song :=
  { title := some "Profile", album := some "Z", artist := some "P", rest := [] }

/-- A normal song on the same album as the Profile record above. -/
def laterAlbumSong : Song :=
  { title := some "A", album := some "Z", artist := some "Q", rest := [] }

/-- A document where the first record of album Z in input order is the
Profile record. -/
def attributionDoc : Document :=
  { metadata := none, songs := [profileWithAlbum, laterAlbumSong] }

/-- A failure set hitting only the per-song write of exSong1. -/
def failB : String → Bool := fun p => p == songPath "B"

/-- A failure set hitting only the catalog write. -/
def failCatalog : String → Bool := fun p => p == "catalog.json"

/-- A failure set hitting only the metadata write. -/
def failMetadata : String → Bool := fun p => p == "metadata.json"

/-- A failure set hitting only the artist-profile write. -/
def failProfile : String → Bool := fun p => p == "artist_profile.json"

theorem lexLe_total : ∀ a b : List Char, lexLe a b = true ∨ lexLe b a = true
  | [], _ => Or.inl rfl
  | _ :: _, [] => Or.inr rfl
  | a :: as, b :: bs => by
    rcases lt_trichotomy a b with h | h | h
    · left; simp [lexLe, h]
    · subst h
      rcases lexLe_total as bs with ih | ih
      · left; simp [lexLe, ih]
      · right; simp [lexLe, ih]
    · right; simp [lexLe, h]

theorem lexLe_trans : ∀ a b c : List Char,
    lexLe a b = true → lexLe b c = true → lexLe a c = true
  | [], _, _, _, _ => rfl
  | _ :: _, [], _, h1, _ => by simp [lexLe] at h1
  | _ :: _, _ :: _, [], _, h2 => by simp [lexLe] at h2
  | a :: as, b :: bs, c :: cs, h1, h2 => by
    rcases lt_trichotomy a b with hab | hab | hab
    · rcases lt_trichotomy b c with hbc | hbc | hbc
      · simp [lexLe, lt_trans hab hbc]
      · subst hbc; simp [lexLe, hab]
      · exfalso; simp [lexLe, lt_asymm hbc, ne_of_gt hbc] at h2
    · subst hab
      rcases lt_trichotomy a c with hac | hac | hac
      · simp [lexLe, hac]
      · subst hac
        simp [lexLe] at h1 h2 ⊢
        exact lexLe_trans as bs cs h1 h2
      · exfalso; simp [lexLe, lt_asymm hac, ne_of_gt hac] at h2
    · exfalso; simp [lexLe, lt_asymm hab, ne_of_gt hab] at h1

theorem sortSongs_sorted (l : List Song) : List.Sorted songLe (sortSongs l) := by
  haveI ht : IsTotal Song songLe :=
    ⟨fun x y => lexLe_total (titleKey x).data (titleKey y).data⟩
  haveI htr : IsTrans Song songLe :=
    ⟨fun _ _ _ h1 h2 => lexLe_trans _ _ _ h1 h2⟩
  exact List.sorted_insertionSort songLe l

theorem sortSongs_perm (l : List Song) : (sortSongs l).Perm l :=
  List.perm_insertionSort songLe l

theorem sortStrings_sorted (l : List String) : List.Sorted strLeP (sortStrings l) := by
  haveI ht : IsTotal String strLeP := ⟨fun x y => lexLe_total x.data y.data⟩
  haveI htr : IsTrans String strLeP := ⟨fun _ _ _ h1 h2 => lexLe_trans _ _ _ h1 h2⟩
  exact List.sorted_insertionSort strLeP l

theorem sortStrings_perm (l : List String) : (sortStrings l).Perm l :=
  List.perm_insertionSort strLeP l

theorem head_filter (p : α → Bool) : ∀ l : List α, (l.filter p).head? = l.find? p
  | [] => rfl
  | a :: l => by
    by_cases h : p a = true
    · simp [List.filter, List.find?, h]
    · simp only [List.filter, List.find?]
      rw [Bool.not_eq_true] at h
      rw [h]
      exact head_filter p l

theorem filter_length_split (p : α → Bool) :
    ∀ l : List α, (l.filter p).length + (l.filter fun a => !(p a)).length = l.length
  | [] => rfl
  | a :: l => by
    by_cases h : p a = true
    · simp only [List.filter, h, Bool.not_true, List.length_cons]
      rw [← filter_length_split p l]
      omega
    · rw [Bool.not_eq_true] at h
      simp only [List.filter, h, Bool.not_false, List.length_cons]
      rw [← filter_length_split p l]
      omega

theorem replace_keeps_valid (c : Char) (h : invalidChars.contains c = false) :
    invalidChars.contains (if c = ' ' then '_' else c) = false := by
  by_cases hc : c = ' '
  · subst hc; decide
  · rw [if_neg hc]; exact h

theorem belongs_iff (keyOf : Song → Option String) (k : String) (s : Song) :
    belongs keyOf k s = true ↔ keyOf s = some k ∧ k ≠ "" := by
  simp [belongs]

theorem lookupG_addToGroup (k k2 : String) (s : Song) :
    ∀ gs : List (String × List Song),
    lookupG k (addToGroup k2 s gs) =
      if k2 = k then some ((lookupG k gs).getD [] ++ [s]) else lookupG k gs
  | [] => by
    by_cases h : k2 = k
    · subst h; simp [addToGroup, lookupG]
    · simp [addToGroup, lookupG, h]
  | (k3, g) :: rest => by
    by_cases h32 : k3 = k2
    · subst h32
      by_cases h3k : k3 = k
      · subst h3k; simp [addToGroup, lookupG]
      · simp [addToGroup, lookupG, h3k]
    · by_cases h3k : k3 = k
      · subst h3k
        have hk2 : ¬(k2 = k3) := fun h => h32 h.symm
        simp [addToGroup, lookupG, h32, hk2]
      · simp [addToGroup, lookupG, h32, h3k, lookupG_addToGroup k k2 s rest]

theorem lookupG_foldl_some (keyOf : Song → Option String) (k : String) :
    ∀ (songs : List Song) (gs : List (String × List Song)) (g : List Song),
    lookupG k gs = some g →
    lookupG k (songs.foldl (stepGroup keyOf) gs) =
      some (g ++ songs.filter (belongs keyOf k))
  | [], gs, g, h => by simpa using h
  | s :: rest, gs, g, h => by
    simp only [List.foldl_cons, List.filter_cons]
    cases hk : keyOf s with
    | none =>
      have hb : ¬(belongs keyOf k s = true) := by
        rw [belongs_iff]; rintro ⟨h1, _⟩; rw [hk] at h1; exact Option.noConfusion h1
      rw [if_neg hb]
      have hstep : stepGroup keyOf gs s = gs := by simp [stepGroup, hk]
      rw [hstep]
      exact lookupG_foldl_some keyOf k rest gs g h
    | some k2 =>
      by_cases hke : k2 = ""
      · subst hke
        have hb : ¬(belongs keyOf k s = true) := by
          rw [belongs_iff]; rintro ⟨h1, h2⟩; rw [hk] at h1
          injection h1 with h1; exact h2 h1.symm
        rw [if_neg hb]
        have hstep : stepGroup keyOf gs s = gs := by simp [stepGroup, hk]
        rw [hstep]
        exact lookupG_foldl_some keyOf k rest gs g h
      · have hstep : stepGroup keyOf gs s = addToGroup k2 s gs := by
          simp [stepGroup, hk, hke]
        rw [hstep]
        by_cases hk2k : k2 = k
        · subst hk2k
          have hb : belongs keyOf k2 s = true := (belongs_iff keyOf k2 s).mpr ⟨hk, hke⟩
          rw [if_pos hb]
          have hl : lookupG k2 (addToGroup k2 s gs) = some (g ++ [s]) := by
            rw [lookupG_addToGroup, if_pos rfl, h]
            rfl
          have hrec := lookupG_foldl_some keyOf k2 rest (addToGroup k2 s gs) (g ++ [s]) hl
          rw [hrec, List.append_assoc, List.singleton_append]
        · have hb : ¬(belongs keyOf k s = true) := by
            rw [belongs_iff]; rintro ⟨h1, _⟩; rw [hk] at h1
            injection h1 with h1; exact hk2k h1
          rw [if_neg hb]
          have hl : lookupG k (addToGroup k2 s gs) = some g := by
            rw [lookupG_addToGroup, if_neg hk2k]; exact h
          exact lookupG_foldl_some keyOf k rest _ g hl

theorem lookupG_foldl_none (keyOf : Song → Option String) (k : String) :
    ∀ (songs : List Song) (gs : List (String × List Song)),
    lookupG k gs = none →
    lookupG k (songs.foldl (stepGroup keyOf) gs) =
      (if songs.filter (belongs keyOf k) = [] then none
       else some (songs.filter (belongs keyOf k)))
  | [], gs, h => by simpa using h
  | s :: rest, gs, h => by
    simp only [List.foldl_cons, List.filter_cons]
    cases hk : keyOf s with
    | none =>
      have hb : ¬(belongs keyOf k s = true) := by
        rw [belongs_iff]; rintro ⟨h1, _⟩; rw [hk] at h1; exact Option.noConfusion h1
      rw [if_neg hb]
      have hstep : stepGroup keyOf gs s = gs := by simp [stepGroup, hk]
      rw [hstep]
      exact lookupG_foldl_none keyOf k rest gs h
    | some k2 =>
      by_cases hke : k2 = ""
      · subst hke
        have hb : ¬(belongs keyOf k s = true) := by
          rw [belongs_iff]; rintro ⟨h1, h2⟩; rw [hk] at h1
          injection h1 with h1; exact h2 h1.symm
        rw [if_neg hb]
        have hstep : stepGroup keyOf gs s = gs := by simp [stepGroup, hk]
        rw [hstep]
        exact lookupG_foldl_none keyOf k rest gs h
      · have hstep : stepGroup keyOf gs s = addToGroup k2 s gs := by
          simp [stepGroup, hk, hke]
        rw [hstep]
        by_cases hk2k : k2 = k
        · subst hk2k
          have hb : belongs keyOf k2 s = true := (belongs_iff keyOf k2 s).mpr ⟨hk, hke⟩
          rw [if_pos hb]
          have hl : lookupG k2 (addToGroup k2 s gs) = some [s] := by
            rw [lookupG_addToGroup, if_pos rfl, h]; rfl
          have hrec := lookupG_foldl_some keyOf k2 rest (addToGroup k2 s gs) [s] hl
          rw [hrec, List.singleton_append]
          rw [if_neg (List.cons_ne_nil _ _)]
        · have hb : ¬(belongs keyOf k s = true) := by
            rw [belongs_iff]; rintro ⟨h1, _⟩; rw [hk] at h1
            injection h1 with h1; exact hk2k h1
          rw [if_neg hb]
          have hl : lookupG k (addToGroup k2 s gs) = none := by
            rw [lookupG_addToGroup, if_neg hk2k]; exact h
          exact lookupG_foldl_none keyOf k rest _ hl

theorem addToGroup_keys_subset (k : String) (s : Song) :
    ∀ gs : List (String × List Song),
    (addToGroup k s gs).map Prod.fst ⊆ gs.map Prod.fst ++ [k]
  | [] => by simp [addToGroup]
  | (k2, g) :: rest => by
    by_cases h : k2 = k
    · subst h
      simp only [addToGroup, if_pos rfl, List.map_cons]
      intro x hx
      rcases List.mem_cons.mp hx with rfl | hx2
      · simp
      · simp only [List.cons_append, List.mem_cons]
        right; exact List.mem_append_left _ hx2
    · simp only [addToGroup, if_neg h, List.map_cons]
      intro x hx
      rcases List.mem_cons.mp hx with rfl | hx2
      · simp
      · have := addToGroup_keys_subset k s rest hx2
        simp only [List.cons_append, List.mem_cons]
        right; exact this

theorem addToGroup_nodupKeys (k : String) (s : Song) :
    ∀ gs : List (String × List Song),
    (gs.map Prod.fst).Nodup → ((addToGroup k s gs).map Prod.fst).Nodup
  | [] => by simp [addToGroup]
  | (k2, g) :: rest => by
    intro h
    simp only [List.map_cons, List.nodup_cons] at h
    by_cases he : k2 = k
    · subst he
      have hag : addToGroup k2 s ((k2, g) :: rest) = (k2, g ++ [s]) :: rest := by
        simp [addToGroup]
      rw [hag, List.map_cons, List.nodup_cons]
      exact h
    · simp only [addToGroup, if_neg he, List.map_cons, List.nodup_cons]
      refine ⟨?_, addToGroup_nodupKeys k s rest h.2⟩
      intro hmem
      rcases List.mem_append.mp (addToGroup_keys_subset k s rest hmem) with h1 | h1
      · exact h.1 h1
      · simp only [List.mem_singleton] at h1
        exact he h1

theorem foldl_stepGroup_nodupKeys (keyOf : Song → Option String) :
    ∀ (songs : List Song) (gs : List (String × List Song)),
    (gs.map Prod.fst).Nodup → ((songs.foldl (stepGroup keyOf) gs).map Prod.fst).Nodup
  | [], _, h => h
  | s :: rest, gs, h => by
    simp only [List.foldl_cons]
    apply foldl_stepGroup_nodupKeys keyOf rest
    cases hk : keyOf s with
    | none => simpa [stepGroup, hk] using h
    | some k2 =>
      by_cases hke : k2 = ""
      · simpa [stepGroup, hk, hke] using h
      · have hstep : stepGroup keyOf gs s = addToGroup k2 s gs := by
          simp [stepGroup, hk, hke]
        rw [hstep]
        exact addToGroup_nodupKeys k2 s gs h

theorem lookupG_of_mem (k : String) (g : List Song) :
    ∀ gs : List (String × List Song),
    (gs.map Prod.fst).Nodup → (k, g) ∈ gs → lookupG k gs = some g
  | [] => by
    intro _ hm
    simp at hm
  | (k2, g2) :: rest => by
    intro hn hm
    rcases List.mem_cons.mp hm with he | hm2
    · cases he
      simp [lookupG]
    · simp only [List.map_cons, List.nodup_cons] at hn
      by_cases hkk : k2 = k
      · subst hkk
        exact absurd (List.mem_map.mpr ⟨(k2, g), hm2, rfl⟩) hn.1
      · simp only [lookupG, if_neg hkk]
        exact lookupG_of_mem k g rest hn.2 hm2

theorem mem_of_lookupG (k : String) (g : List Song) :
    ∀ gs : List (String × List Song), lookupG k gs = some g → (k, g) ∈ gs
  | [] => by
    intro h
    simp [lookupG] at h
  | (k2, g2) :: rest => by
    intro h
    by_cases hk : k2 = k
    · subst hk
      simp only [lookupG, if_pos rfl] at h
      injection h with h
      subst h
      exact List.mem_cons_self _ _
    · simp only [lookupG, if_neg hk] at h
      exact List.mem_cons_of_mem _ (mem_of_lookupG k g rest h)

theorem buildGroups_mem_of_filter (keyOf : Song → Option String) (songs : List Song)
    (k : String) (hne : songs.filter (belongs keyOf k) ≠ []) :
    (k, songs.filter (belongs keyOf k)) ∈ buildGroups keyOf songs := by
  apply mem_of_lookupG
  unfold buildGroups
  rw [lookupG_foldl_none keyOf k songs [] rfl, if_neg hne]

theorem mem_buildGroups (keyOf : Song → Option String) (songs : List Song) (k : String)
    (g : List Song) (h : (k, g) ∈ buildGroups keyOf songs) :
    g = songs.filter (belongs keyOf k) ∧ g ≠ [] ∧ k ≠ "" := by
  have hn : ((buildGroups keyOf songs).map Prod.fst).Nodup :=
    foldl_stepGroup_nodupKeys keyOf songs [] (by simp)
  have hl : lookupG k (buildGroups keyOf songs) = some g := lookupG_of_mem k g _ hn h
  unfold buildGroups at hl
  have hchar := lookupG_foldl_none keyOf k songs [] rfl
  rw [hl] at hchar
  by_cases hf : songs.filter (belongs keyOf k) = []
  · rw [if_pos hf] at hchar
    exact absurd hchar (by simp)
  · rw [if_neg hf] at hchar
    injection hchar with hg
    refine ⟨hg, ?_, ?_⟩
    · rw [hg]; exact hf
    · intro hke
      subst hke
      apply hf
      apply List.filter_eq_nil_iff.mpr
      intro a _
      simp [belongs]

theorem writeGroups_mem (fails : String → Bool) (path msg : String → String)
    (mk : String → List Song → FileContent) :
    ∀ (gs : List (String × List Song)) (x : String × FileContent),
    x ∈ (writeGroups fails path msg mk gs).1 →
    ∃ k g, (k, g) ∈ gs ∧ fails (path k) = false ∧ x = (path k, mk k g)
  | [], x, h => by simp [writeGroups] at h
  | (k, g) :: rest, x, h => by
    cases hf : fails (path k) with
    | true =>
      simp only [writeGroups, hf, if_true] at h
      rcases writeGroups_mem fails path msg mk rest x h with ⟨k2, g2, hm, hf2, hx⟩
      exact ⟨k2, g2, List.mem_cons_of_mem _ hm, hf2, hx⟩
    | false =>
      simp only [writeGroups, hf, Bool.false_eq_true, if_false, List.mem_cons] at h
      rcases h with rfl | h2
      · exact ⟨k, g, List.mem_cons_self _ _, hf, rfl⟩
      · rcases writeGroups_mem fails path msg mk rest x h2 with ⟨k2, g2, hm, hf2, hx⟩
        exact ⟨k2, g2, List.mem_cons_of_mem _ hm, hf2, hx⟩

theorem writeGroups_write (fails : String → Bool) (path msg : String → String)
    (mk : String → List Song → FileContent) :
    ∀ (gs : List (String × List Song)) (k : String) (g : List Song),
    (k, g) ∈ gs → fails (path k) = false →
    (path k, mk k g) ∈ (writeGroups fails path msg mk gs).1
  | [], k, g, hm, _ => by simp at hm
  | (k2, g2) :: rest, k, g, hm, hf => by
    rcases List.mem_cons.mp hm with he | hm2
    · cases he
      simp only [writeGroups, hf, Bool.false_eq_true, if_false]
      exact List.mem_cons_self _ _
    · cases hf2 : fails (path k2) with
      | true =>
        simp only [writeGroups, hf2, if_true]
        exact writeGroups_write fails path msg mk rest k g hm2 hf
      | false =>
        simp only [writeGroups, hf2, Bool.false_eq_true, if_false]
        exact List.mem_cons_of_mem _ (writeGroups_write fails path msg mk rest k g hm2 hf)

theorem writeGroups_log (fails : String → Bool) (path msg : String → String)
    (mk : String → List Song → FileContent) :
    ∀ (gs : List (String × List Song)) (k : String) (g : List Song),
    (k, g) ∈ gs → fails (path k) = true →
    msg k ∈ (writeGroups fails path msg mk gs).2
  | [], k, g, hm, _ => by simp at hm
  | (k2, g2) :: rest, k, g, hm, hf => by
    rcases List.mem_cons.mp hm with he | hm2
    · cases he
      simp only [writeGroups, hf, if_true]
      exact List.mem_cons_self _ _
    · cases hf2 : fails (path k2) with
      | true =>
        simp only [writeGroups, hf2, if_true]
        exact List.mem_cons_of_mem _ (writeGroups_log fails path msg mk rest k g hm2 hf)
      | false =>
        simp only [writeGroups, hf2, Bool.false_eq_true, if_false]
        exact writeGroups_log fails path msg mk rest k g hm2 hf

theorem create_song_files_mem (fails : String → Bool) :
    ∀ (l : List Song) (x : String × FileContent),
    x ∈ (create_song_files fails l).1 →
    ∃ s, s ∈ l ∧ songEligible s = true ∧ fails (songPath (s.title.getD "")) = false ∧
      x = (songPath (s.title.getD ""), FileContent.songFile s)
  | [], x, h => by simp [create_song_files] at h
  | s :: rest, x, h => by
    cases he : songEligible s with
    | false =>
      simp only [create_song_files, he, Bool.false_eq_true, if_false] at h
      rcases create_song_files_mem fails rest x h with ⟨s2, hm, h1, h2, h3⟩
      exact ⟨s2, List.mem_cons_of_mem _ hm, h1, h2, h3⟩
    | true =>
      cases hf : fails (songPath (s.title.getD "")) with
      | true =>
        simp only [create_song_files, he, if_true, hf] at h
        rcases create_song_files_mem fails rest x h with ⟨s2, hm, h1, h2, h3⟩
        exact ⟨s2, List.mem_cons_of_mem _ hm, h1, h2, h3⟩
      | false =>
        simp only [create_song_files, he, if_true, hf, Bool.false_eq_true, if_false,
          List.mem_cons] at h
        rcases h with rfl | h2
        · exact ⟨s, List.mem_cons_self _ _, he, hf, rfl⟩
        · rcases create_song_files_mem fails rest x h2 with ⟨s2, hm, h1, h2, h3⟩
          exact ⟨s2, List.mem_cons_of_mem _ hm, h1, h2, h3⟩

theorem create_song_files_write (fails : String → Bool) :
    ∀ (l : List Song) (s : Song),
    s ∈ l → songEligible s = true → fails (songPath (s.title.getD "")) = false →
    (songPath (s.title.getD ""), FileContent.songFile s) ∈ (create_song_files fails l).1
  | [], s, hm, _, _ => by simp at hm
  | s2 :: rest, s, hm, he, hf => by
    rcases List.mem_cons.mp hm with rfl | hm2
    · simp only [create_song_files, he, if_true, hf, Bool.false_eq_true, if_false]
      exact List.mem_cons_self _ _
    · cases he2 : songEligible s2 with
      | false =>
        simp only [create_song_files, he2, Bool.false_eq_true, if_false]
        exact create_song_files_write fails rest s hm2 he hf
      | true =>
        cases hf2 : fails (songPath (s2.title.getD "")) with
        | true =>
          simp only [create_song_files, he2, if_true, hf2]
          exact create_song_files_write fails rest s hm2 he hf
        | false =>
          simp only [create_song_files, he2, if_true, hf2, Bool.false_eq_true, if_false]
          exact List.mem_cons_of_mem _ (create_song_files_write fails rest s hm2 he hf)

theorem create_song_files_log (fails : String → Bool) :
    ∀ (l : List Song) (s : Song),
    s ∈ l → songEligible s = true → fails (songPath (s.title.getD "")) = true →
    songFailMsg s ∈ (create_song_files fails l).2
  | [], s, hm, _, _ => by simp at hm
  | s2 :: rest, s, hm, he, hf => by
    rcases List.mem_cons.mp hm with rfl | hm2
    · simp only [create_song_files, he, if_true, hf]
      exact List.mem_cons_self _ _
    · cases he2 : songEligible s2 with
      | false =>
        simp only [create_song_files, he2, Bool.false_eq_true, if_false]
        exact create_song_files_log fails rest s hm2 he hf
      | true =>
        cases hf2 : fails (songPath (s2.title.getD "")) with
        | true =>
          simp only [create_song_files, he2, if_true, hf2]
          exact List.mem_cons_of_mem _ (create_song_files_log fails rest s hm2 he hf)
        | false =>
          simp only [create_song_files, he2, if_true, hf2, Bool.false_eq_true, if_false]
          exact create_song_files_log fails rest s hm2 he hf

theorem pm_mem (fails : String → Bool) (d : Document) (x : String × FileContent)
    (h : x ∈ (create_profile_and_metadata_files fails d).1) :
    (∃ m, d.metadata = some m ∧ x = ("metadata.json", FileContent.metadataFile m)) ∨
    (∃ r, findProfile d.songs = some r ∧
      x = ("artist_profile.json", FileContent.profileFile r)) := by
  unfold create_profile_and_metadata_files at h
  cases hm : d.metadata with
  | none =>
    rw [hm] at h
    cases hp : findProfile d.songs with
    | none => rw [hp] at h; simp at h
    | some r =>
      rw [hp] at h
      cases hf : fails "artist_profile.json" with
      | true => simp [hf] at h
      | false =>
        simp only [hf, Bool.false_eq_true, if_false, List.mem_cons] at h
        rcases h with h | h
        · exact Or.inr ⟨r, rfl, h⟩
        · simp at h
  | some m =>
    rw [hm] at h
    cases hf : fails "metadata.json" with
    | true => simp [hf] at h
    | false =>
      simp only [hf, Bool.false_eq_true, if_false] at h
      cases hp : findProfile d.songs with
      | none =>
        rw [hp] at h
        simp only [List.mem_singleton] at h
        exact Or.inl ⟨m, rfl, h⟩
      | some r =>
        rw [hp] at h
        cases hf2 : fails "artist_profile.json" with
        | true =>
          simp only [hf2, if_true, List.mem_singleton] at h
          exact Or.inl ⟨m, rfl, h⟩
        | false =>
          simp only [hf2, Bool.false_eq_true, if_false, List.mem_cons] at h
          rcases h with h | h | h
          · exact Or.inl ⟨m, rfl, h⟩
          · exact Or.inr ⟨r, rfl, h⟩
          · simp at h

theorem pm_profile_write (d : Document) (r : Song) (h : findProfile d.songs = some r) :
    ("artist_profile.json", FileContent.profileFile r) ∈
      (create_profile_and_metadata_files noFail d).1 := by
  unfold create_profile_and_metadata_files
  cases hm : d.metadata <;> simp [noFail, h]

theorem pm_noFail_ok (d : Document) :
    (create_profile_and_metadata_files noFail d).2 = none := by
  unfold create_profile_and_metadata_files
  cases hm : d.metadata <;> cases hp : findProfile d.songs <;> simp [noFail, hp]

theorem create_catalog_file_mem (fails : String → Bool) (songs : List Song)
    (x : String × FileContent) (h : x ∈ (create_catalog_file fails songs).1) :
    x = ("catalog.json", FileContent.catalogFile (catalogOf songs)) := by
  unfold create_catalog_file at h
  cases hf : fails "catalog.json" with
  | true => simp [hf] at h
  | false =>
    simp only [hf, Bool.false_eq_true, if_false, List.mem_singleton] at h
    exact h

theorem process_ok_files_mem (ip : String) (d : Document) (fails : String → Bool)
    (x : String × FileContent) (h : x ∈ (process_songbook ip (LoadResult.ok d) fails).files) :
    x ∈ (create_song_files fails (d.songs.filter noProfile)).1 ∨
    x ∈ (create_album_files fails (d.songs.filter noProfile)).1 ∨
    x ∈ (create_artist_files fails (d.songs.filter noProfile)).1 ∨
    x ∈ (create_profile_and_metadata_files fails d).1 ∨
    x ∈ (create_catalog_file fails (d.songs.filter noProfile)).1 := by
  rcases hpm : (create_profile_and_metadata_files fails d).2 with _ | e
  · rcases hc : (create_catalog_file fails (d.songs.filter noProfile)).2 with _ | e2
    · simp only [process_songbook, hpm, hc, List.mem_append] at h
      tauto
    · simp only [process_songbook, hpm, hc, List.mem_append] at h
      tauto
  · simp only [process_songbook, hpm, List.mem_append] at h
    tauto

theorem process_ok_files_super (ip : String) (d : Document) (fails : String → Bool)
    (x : String × FileContent)
    (h : x ∈ (create_song_files fails (d.songs.filter noProfile)).1 ∨
         x ∈ (create_album_files fails (d.songs.filter noProfile)).1 ∨
         x ∈ (create_artist_files fails (d.songs.filter noProfile)).1 ∨
         x ∈ (create_profile_and_metadata_files fails d).1) :
    x ∈ (process_songbook ip (LoadResult.ok d) fails).files := by
  rcases hpm : (create_profile_and_metadata_files fails d).2 with _ | e
  · rcases hc : (create_catalog_file fails (d.songs.filter noProfile)).2 with _ | e2
    · simp only [process_songbook, hpm, hc, List.mem_append]
      tauto
    · simp only [process_songbook, hpm, hc, List.mem_append]
      tauto
  · simp only [process_songbook, hpm, List.mem_append]
    tauto

theorem process_ok_logs_iff (ip : String) (d : Document) (fails : String → Bool) (m : String) :
    m ∈ (process_songbook ip (LoadResult.ok d) fails).logs ↔
      (m ∈ (create_song_files fails (d.songs.filter noProfile)).2 ∨
       m ∈ (create_album_files fails (d.songs.filter noProfile)).2 ∨
       m ∈ (create_artist_files fails (d.songs.filter noProfile)).2) := by
  rcases hpm : (create_profile_and_metadata_files fails d).2 with _ | e
  · rcases hc : (create_catalog_file fails (d.songs.filter noProfile)).2 with _ | e2
    · simp only [process_songbook, hpm, hc, List.mem_append]
      tauto
    · simp only [process_songbook, hpm, hc, List.mem_append]
      tauto
  · simp only [process_songbook, hpm, List.mem_append]
    tauto

theorem process_ok_status_pm (ip : String) (d : Document) (fails : String → Bool) (e : String)
    (h : (create_profile_and_metadata_files fails d).2 = some e) :
    (process_songbook ip (LoadResult.ok d) fails).status = RunStatus.crashed e := by
  simp only [process_songbook, h]

theorem process_ok_status_catalog (ip : String) (d : Document) (fails : String → Bool)
    (h1 : (create_profile_and_metadata_files fails d).2 = none)
    (h2 : fails "catalog.json" = true) :
    (process_songbook ip (LoadResult.ok d) fails).status = RunStatus.crashed "catalog.json" ∧
    (process_songbook ip (LoadResult.ok d) fails).files =
      (create_song_files fails (d.songs.filter noProfile)).1 ++
      (create_album_files fails (d.songs.filter noProfile)).1 ++
      (create_artist_files fails (d.songs.filter noProfile)).1 ++
      (create_profile_and_metadata_files fails d).1 := by
  have hc : (create_catalog_file fails (d.songs.filter noProfile)).2 = some "catalog.json" := by
    simp [create_catalog_file, h2]
  constructor
  · simp only [process_songbook, h1, hc]
  · simp only [process_songbook, h1, hc]

theorem songPath_ne_catalog (t : String) : songPath t ≠ "catalog.json" := by
  intro h
  have h2 : (some 's' : Option Char) = some 'c' := congrArg (fun s => s.data.head?) h
  exact absurd h2 (by decide)

theorem albumPath_ne_catalog (t : String) : albumPath t ≠ "catalog.json" := by
  intro h
  have h2 : (some 'a' : Option Char) = some 'c' := congrArg (fun s => s.data.head?) h
  exact absurd h2 (by decide)

theorem artistPath_ne_catalog (t : String) : artistPath t ≠ "catalog.json" := by
  intro h
  have h2 : (some 'a' : Option Char) = some 'c' := congrArg (fun s => s.data.head?) h
  exact absurd h2 (by decide)

theorem notFoundMsg_ne_parseErrorMsg (p : String) : notFoundMsg p ≠ parseErrorMsg p := by
  intro h
  obtain ⟨l⟩ := p
  have h2 : ("Error: The file ".data ++ l) ++ " was not found.".data =
      ("Error: The file ".data ++ l) ++ " is not a valid JSON file.".data :=
    congrArg String.data h
  exact absurd (List.append_cancel_left h2) (by decide)

theorem notFoundMsg_ne_readErrorMsg (p e : String) : notFoundMsg p ≠ readErrorMsg e := by
  intro h
  obtain ⟨l⟩ := p
  obtain ⟨l2⟩ := e
  have h2 : (some 'E' : Option Char) = some 'A' := congrArg (fun s => s.data.head?) h
  exact absurd h2 (by decide)

theorem parseErrorMsg_ne_readErrorMsg (p e : String) : parseErrorMsg p ≠ readErrorMsg e := by
  intro h
  obtain ⟨l⟩ := p
  obtain ⟨l2⟩ := e
  have h2 : (some 'E' : Option Char) = some 'A' := congrArg (fun s => s.data.head?) h
  exact absurd h2 (by decide)

theorem noProfile_false_iff (s : Song) : noProfile s = false ↔ s.title = some "Profile" := by
  simp [noProfile]

theorem eligTitle_profile (s : Song) (h : s.title = some "Profile") : eligTitle s = none := by
  simp [eligTitle, h]

theorem eligTitle_untitled (s : Song) (h : s.title = none) : eligTitle s = none := by
  simp [eligTitle, h]

theorem catalogStep_profile (c : Catalog) (s : Song) (h : s.title = some "Profile") :
    catalogStep c s = c := by
  unfold catalogStep
  rw [h]
  simp [truthy]

theorem catalogStep_untitled (c : Catalog) (s : Song) (h : s.title = none) :
    catalogStep c s = c := by
  unfold catalogStep
  rw [h]
  simp [truthy]

theorem filterMap_eligTitle_noProfile : ∀ l : List Song,
    (l.filter noProfile).filterMap eligTitle = l.filterMap eligTitle
  | [] => rfl
  | s :: l => by
    cases hnp : noProfile s with
    | true =>
      simp only [List.filter_cons, hnp, if_true, List.filterMap_cons]
      cases he : eligTitle s with
      | none => exact filterMap_eligTitle_noProfile l
      | some t => rw [filterMap_eligTitle_noProfile l]
    | false =>
      have ht : s.title = some "Profile" := (noProfile_false_iff s).mp hnp
      simp only [List.filter_cons, hnp, Bool.false_eq_true, if_false, List.filterMap_cons,
        eligTitle_profile s ht]
      exact filterMap_eligTitle_noProfile l

theorem foldl_catalogStep_noProfile : ∀ (l : List Song) (c : Catalog),
    (l.filter noProfile).foldl catalogStep c = l.foldl catalogStep c
  | [], _ => rfl
  | s :: l, c => by
    cases hnp : noProfile s with
    | true =>
      simp only [List.filter_cons, hnp, if_true, List.foldl_cons]
      exact foldl_catalogStep_noProfile l (catalogStep c s)
    | false =>
      have ht : s.title = some "Profile" := (noProfile_false_iff s).mp hnp
      simp only [List.filter_cons, hnp, Bool.false_eq_true, if_false, List.foldl_cons,
        catalogStep_profile c s ht]
      exact foldl_catalogStep_noProfile l c

theorem catalogOf_noProfile (l : List Song) :
    catalogOf (l.filter noProfile) = catalogOf l := by
  simp only [catalogOf, filterMap_eligTitle_noProfile, foldl_catalogStep_noProfile]

theorem filterMap_eligTitle_titled : ∀ l : List Song,
    ((l.filter (fun s => s.title.isSome)).filterMap eligTitle) = l.filterMap eligTitle
  | [] => rfl
  | s :: l => by
    cases ht : s.title with
    | some t =>
      have hk : (fun s : Song => s.title.isSome) s = true := by simp [ht]
      simp only [List.filter_cons, hk, if_true, List.filterMap_cons]
      cases he : eligTitle s with
      | none => exact filterMap_eligTitle_titled l
      | some t2 => rw [filterMap_eligTitle_titled l]
    | none =>
      have hk : (fun s : Song => s.title.isSome) s = false := by simp [ht]
      simp only [List.filter_cons, hk, Bool.false_eq_true, if_false, List.filterMap_cons,
        eligTitle_untitled s ht]
      exact filterMap_eligTitle_titled l

theorem foldl_catalogStep_titled : ∀ (l : List Song) (c : Catalog),
    (l.filter (fun s => s.title.isSome)).foldl catalogStep c = l.foldl catalogStep c
  | [], _ => rfl
  | s :: l, c => by
    cases ht : s.title with
    | some t =>
      have hk : (fun s : Song => s.title.isSome) s = true := by simp [ht]
      simp only [List.filter_cons, hk, if_true, List.foldl_cons]
      exact foldl_catalogStep_titled l (catalogStep c s)
    | none =>
      have hk : (fun s : Song => s.title.isSome) s = false := by simp [ht]
      simp only [List.filter_cons, hk, Bool.false_eq_true, if_false, List.foldl_cons,
        catalogStep_untitled c s ht]
      exact foldl_catalogStep_titled l c

theorem catalogOf_titled (l : List Song) :
    catalogOf (l.filter (fun s => s.title.isSome)) = catalogOf l := by
  simp only [catalogOf, filterMap_eligTitle_titled, foldl_catalogStep_titled]

theorem foldl_catalogStep_songs : ∀ (l : List Song) (c : Catalog),
    (l.foldl catalogStep c).songs = c.songs
  | [], _ => rfl
  | s :: l, c => by
    rw [List.foldl_cons, foldl_catalogStep_songs l]
    unfold catalogStep
    split
    · rfl
    · rfl

theorem catalogOf_songs (songs : List Song) :
    (catalogOf songs).songs = sortStrings (songs.filterMap eligTitle) := by
  show (songs.foldl catalogStep
    { artists := [], albums := [], songs := sortStrings (songs.filterMap eligTitle) }).songs =
      sortStrings (songs.filterMap eligTitle)
  rw [foldl_catalogStep_songs]

theorem replace_idem (c : Char) :
    (if (if c = ' ' then '_' else c) = ' ' then '_' else if c = ' ' then '_' else c)
      = if c = ' ' then '_' else c := by
  by_cases hc : c = ' '
  · subst hc; decide
  · rw [if_neg hc, if_neg hc]

/-- Claim C3, counterexample to the quoted example: the slash of
Love/Hate Story is removed, not replaced, so the sanitized name is
LoveHate_Story and not Love_Hate_Story. -/
theorem C3_counterexample :
    sanitize_filename "Love/Hate Story" = "LoveHate_Story" ∧
    ¬(sanitize_filename "Love/Hate Story" = "Love_Hate_Story") := by
  constructor
  · decide
  · decide

/-- Claim C3 (amended): sanitize_filename removes every occurrence of
the nine invalid characters, replaces every space by an underscore,
leaves all other characters unchanged in order, and never truncates
(its length is the input length minus the number of invalid
characters); Love/Hate Story sanitizes to LoveHate_Story. -/
theorem C3_sanitize_contract (s : String) :
    (sanitize_filename s).data =
      (s.data.filter (fun c => !(invalidChars.contains c))).map
        (fun c => if c = ' ' then '_' else c) ∧
    (sanitize_filename s).length +
      (s.data.filter (fun c => invalidChars.contains c)).length = s.length ∧
    sanitize_filename "Love/Hate Story" = "LoveHate_Story" := by
  refine ⟨rfl, ?_, by decide⟩
  have h := filter_length_split (fun c => !(invalidChars.contains c)) s.data
  have h2 : (s.data.filter fun a => !(!(invalidChars.contains a))) =
      s.data.filter (fun a => invalidChars.contains a) :=
    List.filter_congr (fun x _ => by rw [Bool.not_not])
  rw [h2] at h
  show ((s.data.filter (fun c => !(invalidChars.contains c))).map
      (fun c => if c = ' ' then '_' else c)).length +
    (s.data.filter (fun c => invalidChars.contains c)).length = s.data.length
  rw [List.length_map]
  exact h

/-- Claim C10: sanitize_filename is idempotent. -/
theorem C10_sanitize_idempotent (s : String) :
    sanitize_filename (sanitize_filename s) = sanitize_filename s := by
  have hall : ∀ x ∈ (s.data.filter (fun c => !(invalidChars.contains c))).map
      (fun c => if c = ' ' then '_' else c), (!(invalidChars.contains x)) = true := by
    intro x hx
    rcases List.mem_map.mp hx with ⟨c, hc, rfl⟩
    have hcf : invalidChars.contains c = false := by
      cases hcc : invalidChars.contains c
      · rfl
      · exfalso
        have h3 := List.of_mem_filter hc
        simp at h3 hcc
        exact h3 hcc
    show (!(invalidChars.contains (if c = ' ' then '_' else c))) = true
    rw [replace_keeps_valid c hcf]
    rfl
  have hdata : ((((s.data.filter (fun c => !(invalidChars.contains c))).map
        (fun c => if c = ' ' then '_' else c)).filter
          (fun c => !(invalidChars.contains c))).map
            (fun c => if c = ' ' then '_' else c)) =
      (s.data.filter (fun c => !(invalidChars.contains c))).map
        (fun c => if c = ' ' then '_' else c) := by
    rw [List.filter_eq_self.mpr hall, List.map_map]
    apply List.map_congr_left
    intro c _
    exact replace_idem c
  exact congrArg String.mk hdata

/-- Claim C7: each of the three load-failure classes terminates the run
immediately with its own diagnostic, no file written, no directory
created, and the three diagnostics are pairwise distinct. -/
theorem C7_load_failures (ip e : String) (fails : String → Bool) :
    process_songbook ip LoadResult.notFound fails =
      { dirs := [], files := [], logs := [notFoundMsg ip],
        status := RunStatus.loadFail (notFoundMsg ip) } ∧
    process_songbook ip LoadResult.parseError fails =
      { dirs := [], files := [], logs := [parseErrorMsg ip],
        status := RunStatus.loadFail (parseErrorMsg ip) } ∧
    process_songbook ip (LoadResult.otherError e) fails =
      { dirs := [], files := [], logs := [readErrorMsg e],
        status := RunStatus.loadFail (readErrorMsg e) } ∧
    notFoundMsg ip ≠ parseErrorMsg ip ∧
    notFoundMsg ip ≠ readErrorMsg e ∧
    parseErrorMsg ip ≠ readErrorMsg e :=
  ⟨rfl, rfl, rfl, notFoundMsg_ne_parseErrorMsg ip, notFoundMsg_ne_readErrorMsg ip e,
    parseErrorMsg_ne_readErrorMsg ip e⟩

/-- Claim C4: in every emitted album file and artist file, the songs
list is sorted ascending by title and song_count equals its length. -/
theorem C4_sorted_members_and_counts (ip : String) (d : Document) (fails : String → Bool) :
    (∀ p a, (p, FileContent.albumFile a) ∈ (process_songbook ip (LoadResult.ok d) fails).files →
      List.Sorted songLe a.songs ∧ a.song_count = a.songs.length) ∧
    (∀ p a, (p, FileContent.artistFile a) ∈ (process_songbook ip (LoadResult.ok d) fails).files →
      List.Sorted songLe a.songs ∧ a.song_count = a.songs.length) := by
  constructor
  · intro p a h
    rcases process_ok_files_mem ip d fails _ h with h1 | h1 | h1 | h1 | h1
    · rcases create_song_files_mem fails _ _ h1 with ⟨s, _, _, _, hx⟩
      simp at hx
    · rcases writeGroups_mem fails albumPath albumFailMsg _ _ _ h1 with ⟨k, g, _, _, hx⟩
      have ha : a = mkAlbumData k g := by
        have h2 := congrArg Prod.snd hx
        simpa using h2
      subst ha
      exact ⟨sortSongs_sorted g, rfl⟩
    · rcases writeGroups_mem fails artistPath artistFailMsg _ _ _ h1 with ⟨k, g, _, _, hx⟩
      simp at hx
    · rcases pm_mem fails d _ h1 with ⟨m, _, hx⟩ | ⟨r, _, hx⟩ <;> simp at hx
    · have hx := create_catalog_file_mem fails _ _ h1
      simp at hx
  · intro p a h
    rcases process_ok_files_mem ip d fails _ h with h1 | h1 | h1 | h1 | h1
    · rcases create_song_files_mem fails _ _ h1 with ⟨s, _, _, _, hx⟩
      simp at hx
    · rcases writeGroups_mem fails albumPath albumFailMsg _ _ _ h1 with ⟨k, g, _, _, hx⟩
      simp at hx
    · rcases writeGroups_mem fails artistPath artistFailMsg _ _ _ h1 with ⟨k, g, _, _, hx⟩
      have ha : a = mkArtistData k g := by
        have h2 := congrArg Prod.snd hx
        simpa using h2
      subst ha
      exact ⟨sortSongs_sorted g, rfl⟩
    · rcases pm_mem fails d _ h1 with ⟨m, _, hx⟩ | ⟨r, _, hx⟩ <;> simp at hx
    · have hx := create_catalog_file_mem fails _ _ h1
      simp at hx

/-- Witness for claim C4 on the example document. -/
theorem C4_witness :
    (List.Sorted songLe (mkAlbumData "Z" [exSong1, exSong2]).songs ∧
      (mkAlbumData "Z" [exSong1, exSong2]).song_count =
        (mkAlbumData "Z" [exSong1, exSong2]).songs.length) ∧
    (List.Sorted songLe (mkArtistData "X" [exSong1, exSong2]).songs ∧
      (mkArtistData "X" [exSong1, exSong2]).song_count =
        (mkArtistData "X" [exSong1, exSong2]).songs.length) :=
  ⟨(C4_sorted_members_and_counts "in.json" exDoc noFail).1 (albumPath "Z")
      (mkAlbumData "Z" [exSong1, exSong2]) (by decide),
   (C4_sorted_members_and_counts "in.json" exDoc noFail).2 (artistPath "X")
      (mkArtistData "X" [exSong1, exSong2]) (by decide)⟩

/-- Claim C5: the songs list of the emitted catalog is sorted and is a
permutation of (hence equal, as a sorted list, to the sorted list of)
the titles of all input records that have a title other than Profile,
duplicates retained. -/
theorem C5_catalog_songs (ip : String) (d : Document) (fails : String → Bool)
    (p : String) (c : Catalog)
    (h : (p, FileContent.catalogFile c) ∈ (process_songbook ip (LoadResult.ok d) fails).files) :
    List.Sorted strLeP c.songs ∧ c.songs.Perm (d.songs.filterMap eligTitle) := by
  rcases process_ok_files_mem ip d fails _ h with h1 | h1 | h1 | h1 | h1
  · rcases create_song_files_mem fails _ _ h1 with ⟨s, _, _, _, hx⟩
    simp at hx
  · rcases writeGroups_mem fails albumPath albumFailMsg _ _ _ h1 with ⟨k, g, _, _, hx⟩
    simp at hx
  · rcases writeGroups_mem fails artistPath artistFailMsg _ _ _ h1 with ⟨k, g, _, _, hx⟩
    simp at hx
  · rcases pm_mem fails d _ h1 with ⟨m, _, hx⟩ | ⟨r, _, hx⟩ <;> simp at hx
  · have hx := create_catalog_file_mem fails _ _ h1
    have hc : c = catalogOf (d.songs.filter noProfile) := by
      have h2 := congrArg Prod.snd hx
      simpa using h2
    subst hc
    rw [catalogOf_songs]
    constructor
    · exact sortStrings_sorted _
    · rw [filterMap_eligTitle_noProfile]
      exact sortStrings_perm _

/-- Witness for claim C5 on the example document. -/
theorem C5_witness :
    List.Sorted strLeP (catalogOf (exDoc.songs.filter noProfile)).songs ∧
    (catalogOf (exDoc.songs.filter noProfile)).songs.Perm
      (exDoc.songs.filterMap eligTitle) :=
  C5_catalog_songs "in.json" exDoc noFail "catalog.json"
    (catalogOf (exDoc.songs.filter noProfile)) (by decide)

/-- Claim C6, counterexample: when the first record of an album in raw
input order is the Profile sentinel, attribution comes from the first
non-Profile member instead; here the emitted album Z carries artist Q
although the first input song with album Z has artist P. -/
theorem C6_counterexample :
    ("albums/Z.json", FileContent.albumFile (mkAlbumData "Z" [laterAlbumSong])) ∈
      (process_songbook "in.json" (LoadResult.ok attributionDoc) noFail).files ∧
    firstSongWithAlbum attributionDoc.songs "Z" = some profileWithAlbum ∧
    profileWithAlbum.artist = some "P" ∧
    (mkAlbumData "Z" [laterAlbumSong]).artist = "Q" ∧
    ¬((mkAlbumData "Z" [laterAlbumSong]).artist =
        profileWithAlbum.artist.getD "Various Artists") := by
  refine ⟨by decide, by decide, by decide, by decide, by decide⟩

/-- Claim C6 (amended): the artist field of every emitted album file
equals the artist of the first song, among the input songs whose title
is not Profile, whose album equals that exact album title, with the
Various Artists fallback when that song has no artist key. -/
theorem C6_album_attribution (ip : String) (d : Document) (fails : String → Bool)
    (p : String) (a : AlbumData)
    (h : (p, FileContent.albumFile a) ∈ (process_songbook ip (LoadResult.ok d) fails).files) :
    ∃ s, firstSongWithAlbum (d.songs.filter noProfile) a.album_title = some s ∧
      a.artist = s.artist.getD "Various Artists" := by
  rcases process_ok_files_mem ip d fails _ h with h1 | h1 | h1 | h1 | h1
  · rcases create_song_files_mem fails _ _ h1 with ⟨s, _, _, _, hx⟩
    simp at hx
  · rcases writeGroups_mem fails albumPath albumFailMsg _ _ _ h1 with ⟨k, g, hm, _, hx⟩
    have ha : a = mkAlbumData k g := by
      have h2 := congrArg Prod.snd hx
      simpa using h2
    subst ha
    rcases mem_buildGroups _ _ _ _ hm with ⟨hg, hne, hke⟩
    obtain ⟨s0, g2, hg0⟩ : ∃ s0 g2, g = s0 :: g2 := by
      cases g with
      | nil => exact absurd rfl hne
      | cons x xs => exact ⟨x, xs, rfl⟩
    refine ⟨s0, ?_, ?_⟩
    · have htit : (mkAlbumData k g).album_title = k := rfl
      rw [htit]
      unfold firstSongWithAlbum
      rw [← head_filter]
      have hfe : (d.songs.filter noProfile).filter (fun s => s.album == some k) =
          (d.songs.filter noProfile).filter (belongs (fun s => s.album) k) := by
        apply List.filter_congr
        intro x _
        simp [belongs, hke]
      rw [hfe, ← hg, hg0]
      rfl
    · show (mkAlbumData k g).artist = s0.artist.getD "Various Artists"
      rw [hg0]
      rfl
  · rcases writeGroups_mem fails artistPath artistFailMsg _ _ _ h1 with ⟨k, g, _, _, hx⟩
    simp at hx
  · rcases pm_mem fails d _ h1 with ⟨m, _, hx⟩ | ⟨r, _, hx⟩ <;> simp at hx
  · have hx := create_catalog_file_mem fails _ _ h1
    simp at hx

/-- Witness for claim C6 (amended) on the example document. -/
theorem C6_witness :
    ∃ s, firstSongWithAlbum (exDoc.songs.filter noProfile)
        (mkAlbumData "Z" [exSong1, exSong2]).album_title = some s ∧
      (mkAlbumData "Z" [exSong1, exSong2]).artist = s.artist.getD "Various Artists" :=
  C6_album_attribution "in.json" exDoc noFail (albumPath "Z")
    (mkAlbumData "Z" [exSong1, exSong2]) (by decide)

/-- Claim C1: a Profile-titled record is written to no song, album or
artist file, contributes nothing to the catalog, and when present
exactly once it is written verbatim to artist_profile.json. -/
theorem C1_profile_isolation (ip : String) (d : Document) (fails : String → Bool) :
    (∀ s p, s.title = some "Profile" →
      (p, FileContent.songFile s) ∉ (process_songbook ip (LoadResult.ok d) fails).files) ∧
    (∀ s p a, s.title = some "Profile" →
      (p, FileContent.albumFile a) ∈ (process_songbook ip (LoadResult.ok d) fails).files →
      s ∉ a.songs) ∧
    (∀ s p a, s.title = some "Profile" →
      (p, FileContent.artistFile a) ∈ (process_songbook ip (LoadResult.ok d) fails).files →
      s ∉ a.songs) ∧
    catalogOf (d.songs.filter noProfile) = catalogOf d.songs ∧
    (∀ r, d.songs.filter (fun s => s.title == some "Profile") = [r] →
      ("artist_profile.json", FileContent.profileFile r) ∈
        (process_songbook ip (LoadResult.ok d) noFail).files) := by
  refine ⟨?_, ?_, ?_, catalogOf_noProfile d.songs, ?_⟩
  · intro s p hs hmem
    rcases process_ok_files_mem ip d fails _ hmem with h1 | h1 | h1 | h1 | h1
    · rcases create_song_files_mem fails _ _ h1 with ⟨s2, _, he2, _, hx⟩
      have hss : s = s2 := by
        have h2 := congrArg Prod.snd hx
        simpa using h2
      subst hss
      simp [songEligible, hs] at he2
    · rcases writeGroups_mem fails albumPath albumFailMsg _ _ _ h1 with ⟨k, g, _, _, hx⟩
      simp at hx
    · rcases writeGroups_mem fails artistPath artistFailMsg _ _ _ h1 with ⟨k, g, _, _, hx⟩
      simp at hx
    · rcases pm_mem fails d _ h1 with ⟨m, _, hx⟩ | ⟨r, _, hx⟩ <;> simp at hx
    · have hx := create_catalog_file_mem fails _ _ h1
      simp at hx
  · intro s p a hs hmem hsin
    rcases process_ok_files_mem ip d fails _ hmem with h1 | h1 | h1 | h1 | h1
    · rcases create_song_files_mem fails _ _ h1 with ⟨s2, _, _, _, hx⟩
      simp at hx
    · rcases writeGroups_mem fails albumPath albumFailMsg _ _ _ h1 with ⟨k, g, hm, _, hx⟩
      have ha : a = mkAlbumData k g := by
        have h2 := congrArg Prod.snd hx
        simpa using h2
      subst ha
      rcases mem_buildGroups _ _ _ _ hm with ⟨hg, _, _⟩
      have hsg : s ∈ g := ((sortSongs_perm g).mem_iff).mp hsin
      rw [hg] at hsg
      have hso : s ∈ d.songs.filter noProfile := List.mem_of_mem_filter hsg
      have hnp : noProfile s = true := List.of_mem_filter hso
      simp [noProfile, hs] at hnp
    · rcases writeGroups_mem fails artistPath artistFailMsg _ _ _ h1 with ⟨k, g, _, _, hx⟩
      simp at hx
    · rcases pm_mem fails d _ h1 with ⟨m, _, hx⟩ | ⟨r, _, hx⟩ <;> simp at hx
    · have hx := create_catalog_file_mem fails _ _ h1
      simp at hx
  · intro s p a hs hmem hsin
    rcases process_ok_files_mem ip d fails _ hmem with h1 | h1 | h1 | h1 | h1
    · rcases create_song_files_mem fails _ _ h1 with ⟨s2, _, _, _, hx⟩
      simp at hx
    · rcases writeGroups_mem fails albumPath albumFailMsg _ _ _ h1 with ⟨k, g, _, _, hx⟩
      simp at hx
    · rcases writeGroups_mem fails artistPath artistFailMsg _ _ _ h1 with ⟨k, g, hm, _, hx⟩
      have ha : a = mkArtistData k g := by
        have h2 := congrArg Prod.snd hx
        simpa using h2
      subst ha
      rcases mem_buildGroups _ _ _ _ hm with ⟨hg, _, _⟩
      have hsg : s ∈ g := ((sortSongs_perm g).mem_iff).mp hsin
      rw [hg] at hsg
      have hso : s ∈ d.songs.filter noProfile := List.mem_of_mem_filter hsg
      have hnp : noProfile s = true := List.of_mem_filter hso
      simp [noProfile, hs] at hnp
    · rcases pm_mem fails d _ h1 with ⟨m, _, hx⟩ | ⟨r, _, hx⟩ <;> simp at hx
    · have hx := create_catalog_file_mem fails _ _ h1
      simp at hx
  · intro r hr
    have hfp : findProfile d.songs = some r := by
      unfold findProfile
      rw [← head_filter, hr]
      rfl
    exact process_ok_files_super ip d noFail _
      (Or.inr (Or.inr (Or.inr (pm_profile_write d r hfp))))

/-- Witness for claim C1 on the example document. -/
theorem C1_witness :
    (("songs/Profile.json", FileContent.songFile exProfile) ∉
      (process_songbook "in.json" (LoadResult.ok exDoc) noFail).files) ∧
    (exProfile ∉ (mkAlbumData "Z" [exSong1, exSong2]).songs) ∧
    (("artist_profile.json", FileContent.profileFile exProfile) ∈
      (process_songbook "in.json" (LoadResult.ok exDoc) noFail).files) :=
  ⟨(C1_profile_isolation "in.json" exDoc noFail).1 exProfile "songs/Profile.json" (by decide),
   (C1_profile_isolation "in.json" exDoc noFail).2.1 exProfile (albumPath "Z")
      (mkAlbumData "Z" [exSong1, exSong2]) (by decide) (by decide),
   (C1_profile_isolation "in.json" exDoc noFail).2.2.2.2 exProfile (by decide)⟩

/-- Claim C2, counterexample: a record lacking a title key but carrying
an album is not excluded from the album member list; here the untitled
record appears in the songs list of the emitted album Z file. -/
theorem C2_counterexample :
    untitledSong.title = none ∧
    ("albums/Z.json", FileContent.albumFile (mkAlbumData "Z" [untitledSong])) ∈
      (process_songbook "in.json" (LoadResult.ok untitledDoc) noFail).files ∧
    untitledSong ∈ (mkAlbumData "Z" [untitledSong]).songs := by
  refine ⟨rfl, by decide, by decide⟩

/-- Claim C2 (amended): a record lacking a title key is excluded from
all per-song file output and contributes nothing to catalog.json, but
it is not excluded from album or artist member lists: whenever such a
record carries a non-empty album (resp. artist) field and that file's
write does not fail, the emitted album (resp. artist) file contains
the record in its songs list, and its sort key is the empty string. -/
theorem C2_untitled_excluded (ip : String) (d : Document) (fails : String → Bool) :
    (∀ s p, s.title = none →
      (p, FileContent.songFile s) ∉ (process_songbook ip (LoadResult.ok d) fails).files) ∧
    catalogOf (d.songs.filter (fun s => s.title.isSome)) = catalogOf d.songs ∧
    (∀ s, s ∈ d.songs → s.title = none → ∀ a, s.album = some a → a ≠ "" →
      fails (albumPath a) = false →
      (albumPath a, FileContent.albumFile (mkAlbumData a
          ((d.songs.filter noProfile).filter (belongs (fun x => x.album) a)))) ∈
        (process_songbook ip (LoadResult.ok d) fails).files ∧
      s ∈ (mkAlbumData a
          ((d.songs.filter noProfile).filter (belongs (fun x => x.album) a))).songs) ∧
    (∀ s, s ∈ d.songs → s.title = none → ∀ a, s.artist = some a → a ≠ "" →
      fails (artistPath a) = false →
      (artistPath a, FileContent.artistFile (mkArtistData a
          ((d.songs.filter noProfile).filter (belongs (fun x => x.artist) a)))) ∈
        (process_songbook ip (LoadResult.ok d) fails).files ∧
      s ∈ (mkArtistData a
          ((d.songs.filter noProfile).filter (belongs (fun x => x.artist) a))).songs) ∧
    (∀ s : Song, s.title = none → titleKey s = "") := by
  refine ⟨?_, catalogOf_titled d.songs, ?_, ?_, ?_⟩
  · intro s p hs hmem
    rcases process_ok_files_mem ip d fails _ hmem with h1 | h1 | h1 | h1 | h1
    · rcases create_song_files_mem fails _ _ h1 with ⟨s2, _, he2, _, hx⟩
      have hss : s = s2 := by
        have h2 := congrArg Prod.snd hx
        simpa using h2
      subst hss
      simp [songEligible, hs] at he2
    · rcases writeGroups_mem fails albumPath albumFailMsg _ _ _ h1 with ⟨k, g, _, _, hx⟩
      simp at hx
    · rcases writeGroups_mem fails artistPath artistFailMsg _ _ _ h1 with ⟨k, g, _, _, hx⟩
      simp at hx
    · rcases pm_mem fails d _ h1 with ⟨m, _, hx⟩ | ⟨r, _, hx⟩ <;> simp at hx
    · have hx := create_catalog_file_mem fails _ _ h1
      simp at hx
  · intro s hs ht a ha hane hf
    have hnp : noProfile s = true := by simp [noProfile, ht]
    have hso : s ∈ d.songs.filter noProfile := List.mem_filter.mpr ⟨hs, hnp⟩
    have hb : belongs (fun x => x.album) a s = true := by simp [belongs, ha, hane]
    have hsf : s ∈ (d.songs.filter noProfile).filter (belongs (fun x => x.album) a) :=
      List.mem_filter.mpr ⟨hso, hb⟩
    have hne : (d.songs.filter noProfile).filter (belongs (fun x => x.album) a) ≠ [] := by
      intro h0
      rw [h0] at hsf
      simp at hsf
    have hmg := buildGroups_mem_of_filter (fun x => x.album) (d.songs.filter noProfile) a hne
    refine ⟨?_, ?_⟩
    · exact process_ok_files_super ip d fails _
        (Or.inr (Or.inl (writeGroups_write fails albumPath albumFailMsg _ _ a _ hmg hf)))
    · exact ((sortSongs_perm _).mem_iff).mpr hsf
  · intro s hs ht a ha hane hf
    have hnp : noProfile s = true := by simp [noProfile, ht]
    have hso : s ∈ d.songs.filter noProfile := List.mem_filter.mpr ⟨hs, hnp⟩
    have hb : belongs (fun x => x.artist) a s = true := by simp [belongs, ha, hane]
    have hsf : s ∈ (d.songs.filter noProfile).filter (belongs (fun x => x.artist) a) :=
      List.mem_filter.mpr ⟨hso, hb⟩
    have hne : (d.songs.filter noProfile).filter (belongs (fun x => x.artist) a) ≠ [] := by
      intro h0
      rw [h0] at hsf
      simp at hsf
    have hmg := buildGroups_mem_of_filter (fun x => x.artist) (d.songs.filter noProfile) a hne
    refine ⟨?_, ?_⟩
    · exact process_ok_files_super ip d fails _
        (Or.inr (Or.inr (Or.inl
          (writeGroups_write fails artistPath artistFailMsg _ _ a _ hmg hf))))
    · exact ((sortSongs_perm _).mem_iff).mpr hsf
  · intro s hs
    simp [titleKey, hs]

/-- Witness for claim C2 (amended): the untitled record is kept out of
per-song output and the catalog but appears in the album Z member list
and, in the artist-side document, in the artist Y member list. -/
theorem C2_witness :
    (("songs/.json", FileContent.songFile untitledSong) ∉
      (process_songbook "in.json" (LoadResult.ok untitledDoc) noFail).files) ∧
    catalogOf (untitledDoc.songs.filter (fun s => s.title.isSome)) =
      catalogOf untitledDoc.songs ∧
    untitledSong ∈ (mkAlbumData "Z"
      ((untitledDoc.songs.filter noProfile).filter (belongs (fun x => x.album) "Z"))).songs ∧
    (artistPath "Y", FileContent.artistFile (mkArtistData "Y"
        ((untitledArtistDoc.songs.filter noProfile).filter
          (belongs (fun x => x.artist) "Y")))) ∈
      (process_songbook "in.json" (LoadResult.ok untitledArtistDoc) noFail).files ∧
    untitledArtistSong ∈ (mkArtistData "Y"
      ((untitledArtistDoc.songs.filter noProfile).filter
        (belongs (fun x => x.artist) "Y"))).songs ∧
    titleKey untitledSong = "" :=
  ⟨(C2_untitled_excluded "in.json" untitledDoc noFail).1 untitledSong "songs/.json" rfl,
   (C2_untitled_excluded "in.json" untitledDoc noFail).2.1,
   ((C2_untitled_excluded "in.json" untitledDoc noFail).2.2.1 untitledSong (by decide) rfl
      "Z" rfl (by decide) rfl).2,
   ((C2_untitled_excluded "in.json" untitledArtistDoc noFail).2.2.2.1 untitledArtistSong
      (by decide) rfl "Y" rfl (by decide) rfl).1,
   ((C2_untitled_excluded "in.json" untitledArtistDoc noFail).2.2.2.1 untitledArtistSong
      (by decide) rfl "Y" rfl (by decide) rfl).2,
   (C2_untitled_excluded "in.json" untitledDoc noFail).2.2.2.2 untitledSong rfl⟩

/-- Claim C8: a failing song, album or artist write is logged with the
item title or name and the remaining items of the stage are still
processed, while a failing catalog write is uncaught: the run ends
crashed and no catalog file is written. -/
theorem C8_write_failure_policy (ip : String) (d : Document) (fails : String → Bool) :
    (∀ s, s ∈ d.songs.filter noProfile → songEligible s = true →
      fails (songPath (s.title.getD "")) = true →
      songFailMsg s ∈ (process_songbook ip (LoadResult.ok d) fails).logs) ∧
    (∀ s, s ∈ d.songs.filter noProfile → songEligible s = true →
      fails (songPath (s.title.getD "")) = false →
      (songPath (s.title.getD ""), FileContent.songFile s) ∈
        (process_songbook ip (LoadResult.ok d) fails).files) ∧
    (∀ k g, (k, g) ∈ buildGroups (fun s => s.album) (d.songs.filter noProfile) →
      fails (albumPath k) = true →
      albumFailMsg k ∈ (process_songbook ip (LoadResult.ok d) fails).logs) ∧
    (∀ k g, (k, g) ∈ buildGroups (fun s => s.album) (d.songs.filter noProfile) →
      fails (albumPath k) = false →
      (albumPath k, FileContent.albumFile (mkAlbumData k g)) ∈
        (process_songbook ip (LoadResult.ok d) fails).files) ∧
    (∀ k g, (k, g) ∈ buildGroups (fun s => s.artist) (d.songs.filter noProfile) →
      fails (artistPath k) = true →
      artistFailMsg k ∈ (process_songbook ip (LoadResult.ok d) fails).logs) ∧
    (∀ k g, (k, g) ∈ buildGroups (fun s => s.artist) (d.songs.filter noProfile) →
      fails (artistPath k) = false →
      (artistPath k, FileContent.artistFile (mkArtistData k g)) ∈
        (process_songbook ip (LoadResult.ok d) fails).files) ∧
    ((create_profile_and_metadata_files fails d).2 = none → fails "catalog.json" = true →
      (process_songbook ip (LoadResult.ok d) fails).status = RunStatus.crashed "catalog.json" ∧
      ∀ x, ("catalog.json", x) ∉ (process_songbook ip (LoadResult.ok d) fails).files) := by
  refine ⟨?_, ?_, ?_, ?_, ?_, ?_, ?_⟩
  · intro s hm he hf
    exact (process_ok_logs_iff ip d fails _).mpr
      (Or.inl (create_song_files_log fails _ s hm he hf))
  · intro s hm he hf
    exact process_ok_files_super ip d fails _
      (Or.inl (create_song_files_write fails _ s hm he hf))
  · intro k g hm hf
    exact (process_ok_logs_iff ip d fails _).mpr
      (Or.inr (Or.inl (writeGroups_log fails albumPath albumFailMsg _ _ k g hm hf)))
  · intro k g hm hf
    exact process_ok_files_super ip d fails _
      (Or.inr (Or.inl (writeGroups_write fails albumPath albumFailMsg _ _ k g hm hf)))
  · intro k g hm hf
    exact (process_ok_logs_iff ip d fails _).mpr
      (Or.inr (Or.inr (writeGroups_log fails artistPath artistFailMsg _ _ k g hm hf)))
  · intro k g hm hf
    exact process_ok_files_super ip d fails _
      (Or.inr (Or.inr (Or.inl (writeGroups_write fails artistPath artistFailMsg _ _ k g hm hf))))
  · intro h1 h2
    obtain ⟨hst, hfi⟩ := process_ok_status_catalog ip d fails h1 h2
    refine ⟨hst, ?_⟩
    intro x hx
    rw [hfi] at hx
    simp only [List.mem_append] at hx
    rcases hx with ((hx | hx) | hx) | hx
    · rcases create_song_files_mem fails _ _ hx with ⟨s, _, _, _, hx2⟩
      have hp := congrArg Prod.fst hx2
      exact absurd hp.symm (songPath_ne_catalog _)
    · rcases writeGroups_mem fails albumPath albumFailMsg _ _ _ hx with ⟨k, g, _, _, hx2⟩
      have hp := congrArg Prod.fst hx2
      exact absurd hp.symm (albumPath_ne_catalog _)
    · rcases writeGroups_mem fails artistPath artistFailMsg _ _ _ hx with ⟨k, g, _, _, hx2⟩
      have hp := congrArg Prod.fst hx2
      exact absurd hp.symm (artistPath_ne_catalog _)
    · rcases pm_mem fails d _ hx with ⟨m, _, hx2⟩ | ⟨r, _, hx2⟩
      · have hp : "catalog.json" = "metadata.json" := congrArg Prod.fst hx2
        exact absurd hp (by decide)
      · have hp : "catalog.json" = "artist_profile.json" := congrArg Prod.fst hx2
        exact absurd hp (by decide)

/-- Witness for claim C8: one run where the write of song B fails and
one run where only the catalog write fails. -/
theorem C8_witness :
    songFailMsg exSong1 ∈ (process_songbook "in.json" (LoadResult.ok exDoc) failB).logs ∧
    (songPath "A", FileContent.songFile exSong2) ∈
      (process_songbook "in.json" (LoadResult.ok exDoc) failB).files ∧
    (albumPath "Z", FileContent.albumFile (mkAlbumData "Z" [exSong1, exSong2])) ∈
      (process_songbook "in.json" (LoadResult.ok exDoc) failB).files ∧
    (process_songbook "in.json" (LoadResult.ok exDoc) failCatalog).status =
      RunStatus.crashed "catalog.json" :=
  ⟨(C8_write_failure_policy "in.json" exDoc failB).1 exSong1 (by decide) (by decide) (by decide),
   (C8_write_failure_policy "in.json" exDoc failB).2.1 exSong2 (by decide) (by decide) (by decide),
   (C8_write_failure_policy "in.json" exDoc failB).2.2.2.1 "Z" [exSong1, exSong2]
      (by decide) (by decide),
   ((C8_write_failure_policy "in.json" exDoc failCatalog).2.2.2.2.2.2
      (by decide) (by decide)).1⟩

/-- Claim C9: a failing metadata.json or artist_profile.json write is
not caught anywhere: the run ends crashed with that write as the
propagated error, like the catalog write and unlike the per-item
writers. -/
theorem C9_metadata_profile_fatal (ip : String) (d : Document) (fails : String → Bool) :
    (d.metadata.isSome = true → fails "metadata.json" = true →
      (process_songbook ip (LoadResult.ok d) fails).status =
        RunStatus.crashed "metadata.json") ∧
    (∀ r, (d.metadata.isSome = true → fails "metadata.json" = false) →
      findProfile d.songs = some r → fails "artist_profile.json" = true →
      (process_songbook ip (LoadResult.ok d) fails).status =
        RunStatus.crashed "artist_profile.json") := by
  constructor
  · intro hm hf
    apply process_ok_status_pm
    rcases Option.isSome_iff_exists.mp hm with ⟨m, hm2⟩
    unfold create_profile_and_metadata_files
    rw [hm2]
    simp [hf]
  · intro r hmf hp hf
    apply process_ok_status_pm
    unfold create_profile_and_metadata_files
    cases hm2 : d.metadata with
    | none =>
      rw [hp]
      simp [hf]
    | some m =>
      have hmdf : fails "metadata.json" = false := hmf (by rw [hm2]; rfl)
      rw [hp]
      simp [hmdf, hf]

/-- Witness for claim C9: a run where only the metadata write fails and
a run where only the artist-profile write fails. -/
theorem C9_witness :
    (process_songbook "in.json" (LoadResult.ok exDoc) failMetadata).status =
      RunStatus.crashed "metadata.json" ∧
    (process_songbook "in.json" (LoadResult.ok exDoc) failProfile).status =
      RunStatus.crashed "artist_profile.json" :=
  ⟨(C9_metadata_profile_fatal "in.json" exDoc failMetadata).1 (by decide) (by decide),
   (C9_metadata_profile_fatal "in.json" exDoc failProfile).2 exProfile (by decide)
      (by decide) (by decide)⟩

end AlexSongs
